import Mathlib

/-!
Verification development for `fedproject/go_img_recognition` (`src/main.go`).

The program classifies an image fetched from a URL with a pretrained
TensorFlow model and prints the top-5 labels.  This file gives a shallow
embedding of the parts of `main.go` that the verified properties concern:

* the top-K ranker `getTopFiveLabels` (pairing, sorting, slicing),
* the preprocessing graph builder `getNormalizedGraph`,
* the error-propagation structure of `main` and `normalizeImage`.

Modelling decisions, stated once here:

* Go `float32` probabilities are embedded as `ℚ`.  Every claim treated
  below depends only on the order and on the identity of probability
  values (comparisons, pairing, sorting), never on float arithmetic, and
  non-NaN floats embed order-faithfully into `ℚ`.
* Go's `sort.Sort` is an unstable comparison sort whose contract is:
  the result is a permutation of the input that is sorted with respect
  to the `Less` method.  It is embedded by `List.insertionSort`, which
  satisfies that contract; claims about tie order are never made (the
  spec explicitly allows either relative order for ties), and the
  determinism claim is proved for *every* sorted permutation, not just
  the embedded one.
* The slice expression `resultLabels[:5]` panics in Go when the slice
  capacity is below 5.  `resultLabels` is built by repeated `append`
  starting from `nil`, so its capacity sequence is 0,1,2,4,8,…; hence
  capacity ≥ 5 holds iff length ≥ 5.  The panic is embedded as `none`.
-/

/-- The `Label` struct of `main.go`: a class name paired with the
probability the classifier assigned to it (`float32` embedded as `ℚ`). -/
structure Label where
  label : String
  probability : ℚ
deriving DecidableEq

/-- The `Less` method of the `Labels` sort.Interface in `main.go`:
`a[i].Probability > a[j].Probability`.  After `sort.Sort`, consecutive
elements `x, y` satisfy `¬ Less y x`, i.e. `y.probability ≤ x.probability`;
`probDesc x y` is exactly that relation, so a `sort.Sort`-sorted list is
`List.Sorted probDesc`. -/
def probDesc (x y : Label) : Prop := y.probability ≤ x.probability

instance : DecidableRel probDesc := fun x y =>
  inferInstanceAs (Decidable (y.probability ≤ x.probability))

instance : IsTotal Label probDesc :=
  ⟨fun x y => le_total y.probability x.probability⟩

instance : IsTrans Label probDesc :=
  ⟨fun _ _ _ hxy hyz => le_trans hyz hxy⟩

/-- The pairing loop of `getTopFiveLabels` in `main.go`:

    for i, p := range probabilities {
      if i >= len(labels) { break }
      resultLabels = append(resultLabels, Label{Label: labels[i], Probability: p})
    }

It walks `probabilities` with index `i`, stops as soon as `i` reaches
`len(labels)`, and pairs `labels[i]` with `probabilities[i]`. -/
def pairLabels : List String → List ℚ → List Label
  | _, [] => []
  | [], _ :: _ => []
  | l :: ls, p :: ps => ⟨l, p⟩ :: pairLabels ls ps

/-- The call `sort.Sort(Labels(resultLabels))` from `main.go`, embedded as a
comparison sort with respect to `probDesc` (see the header comment on
instability). -/
def sortLabels (l : List Label) : List Label := l.insertionSort probDesc

/-- The spec's ranker contract `topK(labels, probabilities, k)`.
Modelled from the spec: the source hard-codes `k = 5`
(`getTopFiveLabels`); this is the same algorithm — pair positionally,
sort descending by probability, slice the first `k` — with `k` a
parameter, as §4.3 of the spec describes it.  The slice `[:k]` is
guarded by `k ≤ length`, which for the instances used (`k = 5`, and
`k = 2` on a 3-element list) coincides with Go's capacity bound check. -/
def topK (labels : List String) (probabilities : List ℚ) (k : Nat) :
    Option (List Label) :=
  let resultLabels := pairLabels labels probabilities
  let sorted := sortLabels resultLabels
  if k ≤ sorted.length then some (sorted.take k) else none

/-- Function `getTopFiveLabels` from `main.go`: pair, sort, return
`resultLabels[:5]`.  The result is `none` exactly when the Go slice
expression would panic (capacity, hence length, below 5). -/
def getTopFiveLabels (labels : List String) (probabilities : List ℚ) :
    Option (List Label) :=
  topK labels probabilities 5

/-!
Section: the preprocessing graph builder (`getNormalizedGraph`).

The Go function builds a TensorFlow graph through the `op` package: each
`op.X(s, …)` call attaches one operation node to the scope's graph and
returns an output handle.  The scope is embedded as a growing list of
operation nodes; an output handle is the index of its node.  `resolve`
reads back the expression tree a handle denotes, so that the wiring of
the finished graph (which step consumes which output) can be stated and
checked independently of construction order.
-/

/-- The tensor element types `main.go` mentions (`tensorflow.String`,
`tensorflow.Float`; `DecodeJpeg` produces `uint8` data). -/
inductive DType
  | string
  | float
  | uint8
deriving DecidableEq

/-- One operation node as attached by the `op` package calls in
`getNormalizedGraph`.  `Nat` arguments are handles (indices) of
previously attached nodes. -/
inductive OpNode
  | placeholder (dtype : DType)
  | decodeJpeg (channels : Nat) (image : Nat)
  | cast (x : Nat) (dstT : DType)
  | constI32 (v : Int)
  | constI32List (v : List Int)
  | constF32 (v : ℚ)
  | expandDims (x dim : Nat)
  | resizeBilinear (x size : Nat)
  | sub (x y : Nat)
deriving DecidableEq

/-- Attach one node to the scope's graph, returning the new graph and
the handle of the attached node. -/
def addOp (g : List OpNode) (n : OpNode) : List OpNode × Nat :=
  (g ++ [n], g.length)

/-- Function `getNormalizedGraph` from `main.go`, with the nested `op.X` calls
written as a `let` sequence in Go's left-to-right argument evaluation
order:

    input  = op.Placeholder(s, tf.String)
    decode = op.DecodeJpeg(s, input, op.DecodeJpegChannels(3))
    output = op.Sub(s,
               op.ResizeBilinear(s,
                 op.ExpandDims(s,
                   op.Cast(s, decode, tf.Float),
                   op.Const(s, int32(0))),
                 op.Const(s, []int32{224, 224})),
               op.Const(s, float32(117)))

Returns the finalized graph together with the `input` and `output`
handles. -/
def getNormalizedGraph : List OpNode × Nat × Nat :=
  let g0 : List OpNode := []
  let r1 := addOp g0 (.placeholder .string)
  let input := r1.2
  let r2 := addOp r1.1 (.decodeJpeg 3 input)
  let decode := r2.2
  let r3 := addOp r2.1 (.cast decode .float)
  let r4 := addOp r3.1 (.constI32 0)
  let r5 := addOp r4.1 (.expandDims r3.2 r4.2)
  let r6 := addOp r5.1 (.constI32List [224, 224])
  let r7 := addOp r6.1 (.resizeBilinear r5.2 r6.2)
  let r8 := addOp r7.1 (.constF32 117)
  let r9 := addOp r8.1 (.sub r7.2 r8.2)
  (r9.1, input, r9.2)

/-- Expression trees over the operations of `getNormalizedGraph`:
the denotation of an output handle with all wiring unfolded. -/
inductive TFExpr
  | placeholder (dtype : DType)
  | decodeJpeg (channels : Nat) (image : TFExpr)
  | cast (x : TFExpr) (dstT : DType)
  | constI32 (v : Int)
  | constI32List (v : List Int)
  | constF32 (v : ℚ)
  | expandDims (x dim : TFExpr)
  | resizeBilinear (x size : TFExpr)
  | sub (x y : TFExpr)
deriving DecidableEq

/-- Unfold the expression tree denoted by handle `i` in graph `g`,
with an explicit fuel bound (handles always point to earlier nodes, so
fuel `g.length` suffices). -/
def resolve (g : List OpNode) : Nat → Nat → Option TFExpr
  | 0, _ => none
  | fuel + 1, i =>
    match g.get? i with
    | none => none
    | some (.placeholder d) => some (.placeholder d)
    | some (.decodeJpeg c x) => (resolve g fuel x).map (.decodeJpeg c)
    | some (.cast x d) => (resolve g fuel x).map (fun e => .cast e d)
    | some (.constI32 v) => some (.constI32 v)
    | some (.constI32List v) => some (.constI32List v)
    | some (.constF32 v) => some (.constF32 v)
    | some (.expandDims x dim) =>
      match resolve g fuel x, resolve g fuel dim with
      | some ex, some ed => some (.expandDims ex ed)
      | _, _ => none
    | some (.resizeBilinear x size) =>
      match resolve g fuel x, resolve g fuel size with
      | some ex, some es => some (.resizeBilinear ex es)
      | _, _ => none
    | some (.sub x y) =>
      match resolve g fuel x, resolve g fuel y with
      | some ex, some ey => some (.sub ex ey)
      | _, _ => none

/-!
Section: pipeline orchestration (`main`, `normalizeImage`).

`main` and `normalizeImage` call external collaborators (HTTP, the
filesystem, the TensorFlow runtime).  Each collaborator call is
modelled as an oracle field of `Env` returning `Except`; the embedded
functions reproduce exactly the control flow of the Go code around
those calls — in particular which results are checked for errors, in
which order, and which are discarded.
-/

/-- Opaque handle for a `tensorflow.Tensor`; its contents never
influence the control flow being verified. -/
abbrev Tensor := Nat

/-- The `response.Body` reader as `io.Copy` sees it: the bytes the copy
transfers before returning, and the read error it reports, if any
(`io.Copy` returns `(written, err)`; `main.go` discards both). -/
structure Body where
  bytes : String
  readErr : Option String
deriving DecidableEq

/-- The call `io.Copy(&buf, body)` from `normalizeImage`: yields the copied
bytes and the read error.  The Go code uses only the buffer and
ignores both return values. -/
def ioCopy (body : Body) : String × Option String :=
  (body.bytes, body.readErr)

/-- The distinct abort sites of the pipeline, one per
`if err != nil { … }` early exit (plus the missing-argument check and
the slice-bounds panic of `getTopFiveLabels`). -/
inductive Stage
  | usage
  | fetch
  | modelLoad
  | tensorCreate
  | graphBuild
  | preprocessSession
  | preprocessRun
  | sessionCreate
  | classifyRun
  | rankPanic
deriving DecidableEq

/-- Oracles for the external collaborator calls, in the order the
pipeline makes them. -/
structure Env where
  httpGet : Except String Body
  loadModel : Except String (List String)
  newTensor : String → Except String Tensor
  finalize : Except String Unit
  newSessionPre : Except String Unit
  runSessionPre : Tensor → Except String Tensor
  newSessionMain : Except String Unit
  runSessionMain : Tensor → Except String (List ℚ)

/-- Function `normalizeImage` from `main.go`:

    io.Copy(&buf, body)                      -- error discarded
    tensor, err := tensorflow.NewTensor(buf.String()); if err != nil
    graph, input, output, err := getNormalizedGraph(); if err != nil
    session, err := tensorflow.NewSession(graph, nil); if err != nil
    normalized, err := session.Run(...); if err != nil
    return normalized[0], nil

Each early `return nil, err` is tagged with its `Stage`. -/
def normalizeImage (env : Env) (body : Body) : Except (Stage × String) Tensor :=
  let buf := (ioCopy body).1
  match env.newTensor buf with
  | .error e => .error (Stage.tensorCreate, e)
  | .ok tensor =>
    match env.finalize with
    | .error e => .error (Stage.graphBuild, e)
    | .ok _ =>
      match env.newSessionPre with
      | .error e => .error (Stage.preprocessSession, e)
      | .ok _ =>
        match env.runSessionPre tensor with
        | .error e => .error (Stage.preprocessRun, e)
        | .ok normalized => .ok normalized

/-- Function `main` from `main.go`: argument check, HTTP fetch, model load,
`normalizeImage`, session creation, inference run, ranking.  Every
`log.Fatalf` site becomes an `Except.error` carrying the failing stage
and the message `main` prints (prefix plus the collaborator's error);
the successful result is the ranked label list that the final loop
prints. -/
def mainRun (env : Env) (args : List String) : Except (Stage × String) (List Label) :=
  if args.length < 2 then .error (Stage.usage, "usage: imgrecognition <image_url>")
  else
    match env.httpGet with
    | .error e => .error (Stage.fetch, "unable to get image from url: " ++ e)
    | .ok response =>
      match env.loadModel with
      | .error e => .error (Stage.modelLoad, "unable to load model: " ++ e)
      | .ok labels =>
        match normalizeImage env response with
        | .error se => .error (se.1, "unable to make a tensor from image: " ++ se.2)
        | .ok tensor =>
          match env.newSessionMain with
          | .error e => .error (Stage.sessionCreate, "could not init session: " ++ e)
          | .ok _ =>
            match env.runSessionMain tensor with
            | .error e => .error (Stage.classifyRun, "could not run inference: " ++ e)
            | .ok probabilities =>
              match getTopFiveLabels labels probabilities with
              | none => .error (Stage.rankPanic, "runtime error: slice bounds out of range")
              | some res => .ok res

/-!
Section: helper lemmas about the ranker.
-/

lemma topK_eq (labels : List String) (probs : List ℚ) (k : Nat) :
    topK labels probs k =
      if k ≤ (sortLabels (pairLabels labels probs)).length then
        some ((sortLabels (pairLabels labels probs)).take k)
      else none := rfl

lemma sortLabels_sorted (l : List Label) : (sortLabels l).Sorted probDesc :=
  List.sorted_insertionSort probDesc l

lemma sortLabels_perm (l : List Label) : (sortLabels l).Perm l :=
  List.perm_insertionSort probDesc l

lemma sortLabels_length (l : List Label) : (sortLabels l).length = l.length :=
  List.length_insertionSort probDesc l

lemma pairLabels_length :
    ∀ (ls : List String) (ps : List ℚ),
      (pairLabels ls ps).length = min ls.length ps.length
  | _, [] => by simp [pairLabels]
  | [], _ :: _ => by simp [pairLabels]
  | _ :: ls, _ :: ps => by
    simp [pairLabels, pairLabels_length ls ps, Nat.succ_min_succ]

lemma pairLabels_getD :
    ∀ (ls : List String) (ps : List ℚ) (i : Nat),
      i < min ls.length ps.length →
      (pairLabels ls ps).getD i ⟨"", 0⟩ = ⟨ls.getD i "", ps.getD i 0⟩
  | _, [], i => by simp
  | [], _ :: _, i => by simp
  | _ :: _, _ :: _, 0 => fun _ => rfl
  | _ :: ls, _ :: ps, i + 1 => fun h => by
    have h' : i < min ls.length ps.length := by
      simpa [Nat.succ_min_succ] using h
    simpa [pairLabels] using pairLabels_getD ls ps i h'

lemma mem_pairLabels :
    ∀ {x : Label} {ls : List String} {ps : List ℚ}, x ∈ pairLabels ls ps →
      ∃ i, i < ls.length ∧ i < ps.length ∧
        x.label = ls.getD i "" ∧ x.probability = ps.getD i 0 := by
  intro x ls ps
  induction ls generalizing ps with
  | nil => cases ps <;> simp [pairLabels]
  | cons l ls ih =>
    cases ps with
    | nil => simp [pairLabels]
    | cons p ps =>
      intro hmem
      rcases List.mem_cons.mp hmem with h | h
      · exact ⟨0, by simp, by simp, by simp [h], by simp [h]⟩
      · obtain ⟨i, h₁, h₂, h₃, h₄⟩ := ih h
        exact ⟨i + 1, by simpa using h₁, by simpa using h₂, by simpa using h₃,
          by simpa using h₄⟩

lemma sorted_perm_nodup_unique :
    ∀ {l₁ l₂ : List Label}, l₁.Perm l₂ → l₁.Sorted probDesc →
      l₂.Sorted probDesc → (l₁.map Label.probability).Nodup → l₁ = l₂ := by
  intro l₁
  induction l₁ with
  | nil => intro l₂ hp _ _ _; exact (hp.symm.eq_nil).symm
  | cons a t ih =>
    intro l₂ hp hs₁ hs₂ hnd
    cases l₂ with
    | nil => exact absurd hp.eq_nil (by simp)
    | cons b t₂ =>
      have ha₂ : a ∈ b :: t₂ := hp.mem_iff.mp (List.mem_cons_self a t)
      have hb₁ : b ∈ a :: t := hp.symm.mem_iff.mp (List.mem_cons_self b t₂)
      have hle₁ : b.probability ≤ a.probability := by
        rcases List.mem_cons.mp hb₁ with h | h
        · rw [h]
        · exact (List.sorted_cons.mp hs₁).1 b h
      have hle₂ : a.probability ≤ b.probability := by
        rcases List.mem_cons.mp ha₂ with h | h
        · rw [h]
        · exact (List.sorted_cons.mp hs₂).1 a h
      have heq : a.probability = b.probability := le_antisymm hle₂ hle₁
      have hab : a = b := by
        rcases List.mem_cons.mp hb₁ with h | h
        · exact h.symm
        · exfalso
          have hmem : b.probability ∈ t.map Label.probability :=
            List.mem_map_of_mem Label.probability h
          rw [← heq] at hmem
          exact (List.nodup_cons.mp hnd).1 hmem
      subst hab
      have ht : t = t₂ :=
        ih hp.cons_inv (List.sorted_cons.mp hs₁).2 (List.sorted_cons.mp hs₂).2
          (List.nodup_cons.mp hnd).2
      rw [ht]

/-!
Section: the claims.
-/

/-- C1: for every labels list and probabilities list, the ranker's output
is sorted descending by probability — whenever `getTopFiveLabels` returns
a result `R` (i.e. the Go slice does not panic), each entry's probability
is at least the next entry's; ties may sit in either order since only
`≥` is asserted. -/
theorem getTopFiveLabels_sorted_desc (labels : List String) (probs : List ℚ)
    (R : List Label) (h : getTopFiveLabels labels probs = some R) :
    ∀ i, i + 1 < R.length →
      (R.getD (i + 1) ⟨"", 0⟩).probability ≤ (R.getD i ⟨"", 0⟩).probability := by
  intro i hi
  have hlt : i < R.length := Nat.lt_of_succ_lt hi
  have hR : R = (sortLabels (pairLabels labels probs)).take 5 := by
    rw [getTopFiveLabels, topK_eq] at h
    split at h
    · exact (Option.some_inj.mp h).symm
    · exact absurd h (by simp)
  have hs : R.Sorted probDesc := by
    rw [hR]
    exact List.Pairwise.sublist (List.take_sublist _ _) (sortLabels_sorted _)
  have hrel := hs.rel_get_of_lt (a := ⟨i, hlt⟩) (b := ⟨i + 1, hi⟩)
    (Fin.mk_lt_mk.mpr (Nat.lt_succ_self i))
  rw [List.getD_eq_getElem R _ hi, List.getD_eq_getElem R _ hlt]
  exact hrel

/-- Witness for C1 at a concrete input: the ranker on five labels with
probabilities 1–5 returns the reversed list, and entry 1 has probability
at most entry 0's. -/
theorem getTopFiveLabels_sorted_desc_witness :
    (([⟨"e", (5 : ℚ)⟩, ⟨"d", 4⟩, ⟨"c", 3⟩, ⟨"b", 2⟩, ⟨"a", 1⟩] : List Label).getD 1
        ⟨"", 0⟩).probability ≤
      (([⟨"e", (5 : ℚ)⟩, ⟨"d", 4⟩, ⟨"c", 3⟩, ⟨"b", 2⟩, ⟨"a", 1⟩] : List Label).getD 0
        ⟨"", 0⟩).probability :=
  getTopFiveLabels_sorted_desc ["a", "b", "c", "d", "e"] [1, 2, 3, 4, 5]
    [⟨"e", 5⟩, ⟨"d", 4⟩, ⟨"c", 3⟩, ⟨"b", 2⟩, ⟨"a", 1⟩] (by decide) 0 (by decide)

/-- C2: the pairing loop pairs `probabilities[i]` with `labels[i]`
positionally for exactly the indices `i` below
`min (len labels) (len probabilities)`; probabilities at indices beyond
the labels are dropped silently (the paired list simply has length
`min`, and the loop is total — no error path exists). -/
theorem pairLabels_positional (labels : List String) (probs : List ℚ) :
    (pairLabels labels probs).length = min labels.length probs.length ∧
    ∀ i, i < min labels.length probs.length →
      (pairLabels labels probs).getD i ⟨"", 0⟩ =
        ⟨labels.getD i "", probs.getD i 0⟩ :=
  ⟨pairLabels_length labels probs, fun i hi => pairLabels_getD labels probs i hi⟩

/-- Witness for C2 at a concrete input: with 2 labels and 3
probabilities, the paired list has length 2 and entry 1 is the
positional pair. -/
theorem pairLabels_positional_witness :
    (pairLabels ["cat", "dog"] [1, 2, 3]).getD 1 ⟨"", 0⟩ = ⟨"dog", 2⟩ :=
  (pairLabels_positional ["cat", "dog"] [1, 2, 3]).2 1 (by decide)

/-- C3: when there are at least 5 probabilities and at least as many
labels as probabilities, `getTopFiveLabels` returns a result of length
exactly 5. -/
theorem getTopFiveLabels_length_five (labels : List String) (probs : List ℚ)
    (h5 : 5 ≤ probs.length) (hl : probs.length ≤ labels.length) :
    ∃ R, getTopFiveLabels labels probs = some R ∧ R.length = 5 := by
  have hmin : min labels.length probs.length = probs.length := min_eq_right hl
  have hlen : (sortLabels (pairLabels labels probs)).length = probs.length := by
    rw [sortLabels_length, pairLabels_length, hmin]
  refine ⟨(sortLabels (pairLabels labels probs)).take 5, ?_, ?_⟩
  · rw [getTopFiveLabels, topK_eq, if_pos (by rw [hlen]; exact h5)]
  · rw [List.length_take, hlen]
    exact min_eq_left h5

/-- Witness for C3 at a concrete input with exactly 5 labels and 5
probabilities. -/
theorem getTopFiveLabels_length_five_witness :
    ∃ R, getTopFiveLabels ["a", "b", "c", "d", "e"] [1, 2, 3, 4, 5] = some R ∧
      R.length = 5 :=
  getTopFiveLabels_length_five ["a", "b", "c", "d", "e"] [1, 2, 3, 4, 5]
    (by decide) (by decide)

/-- C4: the final slice `resultLabels[:5]` is within bounds exactly when
at least 5 pairs are available, i.e.
`5 ≤ min (len labels) (len probabilities)`; with fewer than 5 pairs the
ranker does not truncate or report an error but panics (capacity of the
appended slice is below 5 whenever its length is — the embedding returns
`none` for the panic, `some` otherwise). -/
theorem getTopFiveLabels_isSome_iff (labels : List String) (probs : List ℚ) :
    (getTopFiveLabels labels probs).isSome ↔
      5 ≤ min labels.length probs.length := by
  have hlen : (sortLabels (pairLabels labels probs)).length =
      min labels.length probs.length := by
    rw [sortLabels_length, pairLabels_length]
  rw [getTopFiveLabels, topK_eq, hlen]
  split <;> simp_all

/-- C6: on the spec's concrete example — labels `["cat","dog","fish"]`,
probabilities `[0.1, 0.7, 0.2]`, `k = 2` — the ranker returns exactly
`[{"dog",0.7}, {"fish",0.2}]` in that order. -/
theorem topK_concrete_example :
    topK ["cat", "dog", "fish"] [1/10, 7/10, 2/10] 2 =
      some [⟨"dog", 7/10⟩, ⟨"fish", 2/10⟩] := by
  norm_num [topK, sortLabels, pairLabels, List.insertionSort,
    List.orderedInsert, probDesc]

/-- C5: the preprocessing graph builder wires the fixed operation chain
in order, each step consuming the previous step's output: scalar string
placeholder → JPEG decode forced to 3 channels → cast to float →
leading batch dimension inserted at position 0 → bilinear resize to
224×224 → element-wise subtraction of the constant mean 117.0; the
graph's output handle denotes exactly that subtraction, and the input
handle denotes the placeholder. -/
theorem getNormalizedGraph_chain :
    resolve getNormalizedGraph.1 getNormalizedGraph.1.length
        getNormalizedGraph.2.2 =
      some (.sub
        (.resizeBilinear
          (.expandDims
            (.cast (.decodeJpeg 3 (.placeholder .string)) .float)
            (.constI32 0))
          (.constI32List [224, 224]))
        (.constF32 117)) ∧
    resolve getNormalizedGraph.1 getNormalizedGraph.1.length
        getNormalizedGraph.2.1 =
      some (.placeholder .string) :=
  ⟨rfl, rfl⟩

/-- C7: the ranker is deterministic when no two probabilities are equal.
Go's `sort.Sort` only promises *some* permutation of the paired list
that is sorted with respect to `Less`; this theorem shows that any two
outputs satisfying that contract on the same input coincide when the
paired probabilities are pairwise distinct, so two runs on identical
input yield the same ordered output. -/
theorem ranker_deterministic (labels : List String) (probs : List ℚ)
    (out₁ out₂ : List Label)
    (hp₁ : out₁.Perm (pairLabels labels probs)) (hs₁ : out₁.Sorted probDesc)
    (hp₂ : out₂.Perm (pairLabels labels probs)) (hs₂ : out₂.Sorted probDesc)
    (hnd : ((pairLabels labels probs).map Label.probability).Nodup) :
    out₁ = out₂ := by
  have hp := hp₁.trans hp₂.symm
  have hnd₁ : (out₁.map Label.probability).Nodup :=
    ((hp₁.map Label.probability).nodup_iff).mpr hnd
  exact sorted_perm_nodup_unique hp hs₁ hs₂ hnd₁

/-- Witness for C7 at a concrete tie-free input: the embedded sort's
output is the unique sorted permutation. -/
theorem ranker_deterministic_witness :
    sortLabels (pairLabels ["a", "b"] [1, 2]) =
      [⟨"b", (2 : ℚ)⟩, ⟨"a", 1⟩] :=
  ranker_deterministic ["a", "b"] [1, 2] _ _ (by decide) (by decide)
    (by decide) (by decide) (by decide)

/-!
Section: helper lemmas about the pipeline.
-/

lemma normalizeImage_tensorCreate_error (env : Env) (body : Body) (e : String)
    (h : env.newTensor body.bytes = .error e) :
    normalizeImage env body = .error (Stage.tensorCreate, e) := by
  simp [normalizeImage, ioCopy, h]

lemma normalizeImage_graphBuild_error (env : Env) (body : Body) (t : Tensor)
    (e : String) (h₁ : env.newTensor body.bytes = .ok t)
    (h₂ : env.finalize = .error e) :
    normalizeImage env body = .error (Stage.graphBuild, e) := by
  simp [normalizeImage, ioCopy, h₁, h₂]

lemma normalizeImage_preprocessSession_error (env : Env) (body : Body)
    (t : Tensor) (e : String) (h₁ : env.newTensor body.bytes = .ok t)
    (h₂ : env.finalize = .ok ()) (h₃ : env.newSessionPre = .error e) :
    normalizeImage env body = .error (Stage.preprocessSession, e) := by
  simp [normalizeImage, ioCopy, h₁, h₂, h₃]

lemma normalizeImage_preprocessRun_error (env : Env) (body : Body)
    (t : Tensor) (e : String) (h₁ : env.newTensor body.bytes = .ok t)
    (h₂ : env.finalize = .ok ()) (h₃ : env.newSessionPre = .ok ())
    (h₄ : env.runSessionPre t = .error e) :
    normalizeImage env body = .error (Stage.preprocessRun, e) := by
  simp [normalizeImage, ioCopy, h₁, h₂, h₃, h₄]

lemma mainRun_normalize_error (env : Env) (args : List String)
    (hargs : 2 ≤ args.length) (b : Body) (s : Stage) (e : String)
    (h₁ : env.httpGet = .ok b) (h₂ : ∃ ls, env.loadModel = .ok ls)
    (h₃ : normalizeImage env b = .error (s, e)) :
    mainRun env args =
      .error (s, "unable to make a tensor from image: " ++ e) := by
  obtain ⟨ls, h₂⟩ := h₂
  have hnot : ¬ args.length < 2 := Nat.not_lt.mpr hargs
  simp [mainRun, hnot, h₁, h₂, h₃]

/-- C8: no error is recovered locally at any pipeline stage — whenever a
stage's collaborator call returns an error (and the stages before it
succeeded, so control reaches it), the whole run aborts with an error
tagged with that stage (carrying the message `main` prints for it), and
no ranked output is produced.  The stages are: image fetch, model load,
tensor construction, preprocessing-graph build, preprocessing session,
preprocessing run, classification session creation, classification run;
each conjunct below handles one of them. -/
theorem pipeline_error_propagation (env : Env) (args : List String)
    (hargs : 2 ≤ args.length) :
    (∀ e, env.httpGet = .error e →
      mainRun env args =
        .error (Stage.fetch, "unable to get image from url: " ++ e)) ∧
    (∀ b e, env.httpGet = .ok b → env.loadModel = .error e →
      mainRun env args =
        .error (Stage.modelLoad, "unable to load model: " ++ e)) ∧
    (∀ b ls e, env.httpGet = .ok b → env.loadModel = .ok ls →
      env.newTensor b.bytes = .error e →
      mainRun env args =
        .error (Stage.tensorCreate,
          "unable to make a tensor from image: " ++ e)) ∧
    (∀ b ls t e, env.httpGet = .ok b → env.loadModel = .ok ls →
      env.newTensor b.bytes = .ok t → env.finalize = .error e →
      mainRun env args =
        .error (Stage.graphBuild,
          "unable to make a tensor from image: " ++ e)) ∧
    (∀ b ls t e, env.httpGet = .ok b → env.loadModel = .ok ls →
      env.newTensor b.bytes = .ok t → env.finalize = .ok () →
      env.newSessionPre = .error e →
      mainRun env args =
        .error (Stage.preprocessSession,
          "unable to make a tensor from image: " ++ e)) ∧
    (∀ b ls t e, env.httpGet = .ok b → env.loadModel = .ok ls →
      env.newTensor b.bytes = .ok t → env.finalize = .ok () →
      env.newSessionPre = .ok () → env.runSessionPre t = .error e →
      mainRun env args =
        .error (Stage.preprocessRun,
          "unable to make a tensor from image: " ++ e)) ∧
    (∀ b ls t e, env.httpGet = .ok b → env.loadModel = .ok ls →
      normalizeImage env b = .ok t → env.newSessionMain = .error e →
      mainRun env args =
        .error (Stage.sessionCreate, "could not init session: " ++ e)) ∧
    (∀ b ls t e, env.httpGet = .ok b → env.loadModel = .ok ls →
      normalizeImage env b = .ok t → env.newSessionMain = .ok () →
      env.runSessionMain t = .error e →
      mainRun env args =
        .error (Stage.classifyRun, "could not run inference: " ++ e)) := by
  have hnot : ¬ args.length < 2 := Nat.not_lt.mpr hargs
  refine ⟨?_, ?_, ?_, ?_, ?_, ?_, ?_, ?_⟩
  · intro e h
    simp [mainRun, hnot, h]
  · intro b e h₁ h₂
    simp [mainRun, hnot, h₁, h₂]
  · intro b ls e h₁ h₂ h₃
    exact mainRun_normalize_error env args hargs b _ _ h₁ ⟨ls, h₂⟩
      (normalizeImage_tensorCreate_error env b e h₃)
  · intro b ls t e h₁ h₂ h₃ h₄
    exact mainRun_normalize_error env args hargs b _ _ h₁ ⟨ls, h₂⟩
      (normalizeImage_graphBuild_error env b t e h₃ h₄)
  · intro b ls t e h₁ h₂ h₃ h₄ h₅
    exact mainRun_normalize_error env args hargs b _ _ h₁ ⟨ls, h₂⟩
      (normalizeImage_preprocessSession_error env b t e h₃ h₄ h₅)
  · intro b ls t e h₁ h₂ h₃ h₄ h₅ h₆
    exact mainRun_normalize_error env args hargs b _ _ h₁ ⟨ls, h₂⟩
      (normalizeImage_preprocessRun_error env b t e h₃ h₄ h₅ h₆)
  · intro b ls t e h₁ h₂ h₃ h₄
    simp [mainRun, hnot, h₁, h₂, h₃, h₄]
  · intro b ls t e h₁ h₂ h₃ h₄ h₅
    simp [mainRun, hnot, h₁, h₂, h₃, h₄, h₅]

/-- Witness for C8 at a concrete environment whose HTTP fetch fails:
the run aborts at the fetch stage with the message `main` prints. -/
theorem pipeline_error_propagation_witness :
    mainRun
        ⟨.error "boom", .ok [], fun _ => .ok 0, .ok (), .ok (),
          fun t => .ok t, .ok (), fun _ => .ok []⟩
        ["imgrecognition", "http: example"] =
      .error (Stage.fetch, "unable to get image from url: boom") :=
  (pipeline_error_propagation _ _ (by decide)).1 "boom" rfl

/-- C9: pairing is preserved through ranking — every entry of a
returned result is the positional pair `(labels[i], probabilities[i])`
for some index `i` below both lengths; no label or probability is
invented and none is re-paired with another index's partner. -/
theorem getTopFiveLabels_pairs_preserved (labels : List String)
    (probs : List ℚ) (R : List Label)
    (h : getTopFiveLabels labels probs = some R) :
    ∀ x ∈ R, ∃ i, i < labels.length ∧ i < probs.length ∧
      x.label = labels.getD i "" ∧ x.probability = probs.getD i 0 := by
  intro x hx
  have hR : R = (sortLabels (pairLabels labels probs)).take 5 := by
    rw [getTopFiveLabels, topK_eq] at h
    split at h
    · exact (Option.some_inj.mp h).symm
    · exact absurd h (by simp)
  have hx' : x ∈ sortLabels (pairLabels labels probs) := by
    rw [hR] at hx
    exact List.mem_of_mem_take hx
  have hmem : x ∈ pairLabels labels probs :=
    (sortLabels_perm (pairLabels labels probs)).mem_iff.mp hx'
  exact mem_pairLabels hmem

/-- Witness for C9 at a concrete input: the top entry of the ranked
result is a positional pair of the inputs. -/
theorem getTopFiveLabels_pairs_preserved_witness :
    ∃ i, i < (["a", "b", "c", "d", "e"] : List String).length ∧
      i < ([1, 2, 3, 4, 5] : List ℚ).length ∧
      (Label.mk "e" 5).label = (["a", "b", "c", "d", "e"] : List String).getD i "" ∧
      (Label.mk "e" 5).probability = ([1, 2, 3, 4, 5] : List ℚ).getD i 0 :=
  getTopFiveLabels_pairs_preserved ["a", "b", "c", "d", "e"] [1, 2, 3, 4, 5]
    [⟨"e", 5⟩, ⟨"d", 4⟩, ⟨"c", 3⟩, ⟨"b", 2⟩, ⟨"a", 1⟩] (by decide)
    ⟨"e", 5⟩ (by decide)

/-- C10: `normalizeImage` discards the error from copying the response
body — two body readers that deliver the same bytes are
indistinguishable to it, whatever read error either reports (including
a failure after zero bytes), so the function never returns a read error
and proceeds to build the input tensor from whatever was copied. -/
theorem normalizeImage_ignores_read_error (env : Env) (b₁ b₂ : Body)
    (h : b₁.bytes = b₂.bytes) :
    normalizeImage env b₁ = normalizeImage env b₂ := by
  unfold normalizeImage ioCopy
  rw [h]

/-- Witness for C10: a body whose read fails partway is treated exactly
like a complete one with the same bytes. -/
theorem normalizeImage_ignores_read_error_witness :
    normalizeImage
        ⟨.ok ⟨"", none⟩, .ok [], fun _ => .ok 0, .ok (), .ok (),
          fun t => .ok t, .ok (), fun _ => .ok []⟩
        ⟨"jpegbytes", some "connection reset"⟩ =
      normalizeImage
        ⟨.ok ⟨"", none⟩, .ok [], fun _ => .ok 0, .ok (), .ok (),
          fun t => .ok t, .ok (), fun _ => .ok []⟩
        ⟨"jpegbytes", none⟩ :=
  normalizeImage_ignores_read_error _ ⟨"jpegbytes", some "connection reset"⟩
    ⟨"jpegbytes", none⟩ rfl
